import Mathlib

/-!
Verification of the configuration core of `driver/config/config.go`.

The Go code wraps an external key/value configuration source
(`configx.Provider`, backed by koanf) behind typed accessors.  We embed the
source as an association list from dotted keys to stored values (`Doc`), the
process environment (hostname, CPU count, random-UUID stream) as `Env`, and
each accessor of `config.go` as a Lean function over these.

Modelling conventions, used throughout:
 * `[]byte` values are kept as `String` (Go converts via UTF-8; the
   conversion is injective, so equalities of byte slices coincide with
   equalities of the originating strings).
 * Go `time.Duration` is an `Int` counting nanoseconds; `bytesize.ByteSize`
   is a `Nat` counting bytes.
 * Go integer conversions `uint8(...)` / `uint32(...)` are explicit
   `% 256` / `% 2 ^ 32` reductions.
 * calls that terminate the process (`logger.Fatal*`) are modelled as
   `Option.none` results.
-/

set_option autoImplicit false

/-- A structured URL value, mirroring the fields of Go `net/url.URL` that the
configuration core can produce or observe.  `Opq` models `URL.Opaque`.  The
`User` and `Fragment` fields of `net/url.URL` are not modelled: no value the
configuration core constructs ever sets them, and our parser validates and
discards userinfo (see `parseAuthority`). -/
structure URL where
  Scheme : String
  Opq : String
  Host : String
  Path : String
  ForceQuery : Bool
  RawQuery : String
deriving DecidableEq, Repr

/-- One entry of a hooks array as it appears in the JSON document, before the
normalisation performed by `selfServiceHooks`: `hook` is the hook name and
`config` the raw JSON text of its `config` field, with `""` standing for an
omitted or empty `config` (a zero-length `json.RawMessage`). -/
structure HookJSON where
  hook : String
  config : String
deriving DecidableEq, Repr

/-- Model of `Schema` of config.go (lines 124-127): an identity schema reference. -/
structure Schema where
  ID : String
  URL : String
deriving DecidableEq, Repr

/-- A value stored in the configuration source at some dotted key.  The source
(koanf) stores JSON-decoded Go values; we enumerate the shapes the accessors
of config.go can observe.  `vURL` models a structured `url.URL` stored via
`Set`; `vHooks` and `vSchemas` model JSON arrays that the code re-marshals and
decodes into `[]SelfServiceHook` / `Schemas` (the decode itself, performed by
`encoding/json`, is kept structural); `vRaw` models any other JSON fragment by
its raw text, as observed through `gjson.GetBytes(..).Raw`. -/
inductive GoVal where
  | vStr (s : String)
  | vStrs (l : List String)
  | vInt (n : Int)
  | vBool (b : Bool)
  | vDur (n : Int)
  | vSize (n : Nat)
  | vURL (u : URL)
  | vHooks (hs : List HookJSON)
  | vSchemas (ss : List Schema)
  | vRaw (s : String)
deriving DecidableEq, Repr

/-- The configuration document held by the source: dotted key to value. -/
abbrev Doc := List (String × GoVal)

/-- The process environment feeding the nondeterministic inputs of config.go:
`hostname` is the result of `os.Hostname()` (`none` on error), `numCPU` is
`runtime.NumCPU()`, and `uuids` is the stream of values produced by successive
`uuid.New().String()` calls. -/
structure Env where
  hostname : Option String
  numCPU : Nat
  uuids : Nat → String

/-- Raw lookup in the document: the value stored at `key`, if any.  Models
koanf `Get`, which returns `nil` for an absent key. -/
def lookupKey (d : Doc) (key : String) : Option GoVal :=
  match d with
  | [] => none
  | (k, v) :: rest => if k = key then some v else lookupKey rest key

/-- Models `Provider.Exists` of configx: whether the key resolves at all. -/
def existsKey (d : Doc) (key : String) : Bool :=
  (lookupKey d key).isSome

/-- Models `Provider.Set` of configx: stores `v` at `key`.  (The Go `Set`
persists into the koanf store and never fails for the keys used here.) -/
def setKey (d : Doc) (key : String) (v : GoVal) : Doc :=
  (key, v) :: d

/-- Decimal rendering of a natural number, as produced by Go `fmt.Sprintf`
with verb `%d` (most significant digit first, no sign, no padding). -/
def natDecimalAux : Nat → Nat → List Char
  | 0, _ => []
  | fuel + 1, n =>
    if n < 10 then [Char.ofNat (48 + n)]
    else natDecimalAux fuel (n / 10) ++ [Char.ofNat (48 + n % 10)]

/-- Decimal digits of `n`, most significant first. -/
def natDecimal (n : Nat) : List Char :=
  natDecimalAux (n + 1) n

/-- Go `fmt.Sprintf("%d", i)` for a (signed) `int`. -/
def intDecimal (i : Int) : String :=
  if i < 0 then String.mk ('-' :: natDecimal (-i).toNat)
  else String.mk (natDecimal i.toNat)

/-- Models `cast.ToString`, used by koanf `String(key)` on the stored value:
strings pass through, integers and booleans render, and values the cast
cannot handle yield `""`.  (The `fmt.Stringer` rendering of `time.Duration`
values and other exotic casts are coarsely modelled as `""`; no accessor in
config.go reads a string from a key holding such a value.) -/
def castString : GoVal → String
  | .vStr s => s
  | .vInt n => intDecimal n
  | .vBool b => if b then "true" else "false"
  | _ => ""

/-- Models configx `Provider.String(key)`: `cast.ToString` of the stored
value, `""` when the key is absent. -/
def stringKey (d : Doc) (key : String) : String :=
  match lookupKey d key with
  | some v => castString v
  | none => ""

/-- Models configx `Provider.StringF(key, fallback)`: the fallback when the
key does not exist, otherwise `String(key)`. -/
def stringF (d : Doc) (key fallback : String) : String :=
  match lookupKey d key with
  | some v => castString v
  | none => fallback

/-- Models configx `Provider.Strings(key)` (`cast.ToStringSlice`): the stored
string list, `[]` when the key is absent or holds a non-slice value. -/
def stringsKey (d : Doc) (key : String) : List String :=
  match lookupKey d key with
  | some (.vStrs l) => l
  | _ => []

/-- Models configx `Provider.IntF(key, fallback)`: the fallback when the key
does not exist, otherwise `Int(key)` (`cast.ToInt`, which yields `0` for a
value it cannot convert). -/
def intF (d : Doc) (key : String) (fallback : Int) : Int :=
  match lookupKey d key with
  | some (.vInt n) => n
  | some _ => 0
  | none => fallback

/-- Models configx `Provider.Bool(key)` (`cast.ToBool`): the stored boolean,
`false` when the key is absent.  (String-to-bool coercions of `cast.ToBool`
are not modelled; no claim stores a string at a boolean key.) -/
def boolKey (d : Doc) (key : String) : Bool :=
  match lookupKey d key with
  | some (.vBool b) => b
  | _ => false

/-- Models configx `Provider.DurationF(key, fallback)`: fallback when absent,
otherwise the stored duration (`cast.ToDuration` yields `0` for a value it
cannot convert). -/
def durationF (d : Doc) (key : String) (fallback : Int) : Int :=
  match lookupKey d key with
  | some (.vDur n) => n
  | some _ => 0
  | none => fallback

/-- Models configx `Provider.ByteSizeF(key, fallback)`: fallback when the key
does not exist, the stored size otherwise.  JSON numbers arrive in Go as
`float64` and are cast to `bytesize.ByteSize`; we model non-negative integral
sizes (`vInt` / `vSize`).  The human-readable-string branch
(`bytesize.Parse`, e.g. `"128MB"`) belongs to the dependency and is modelled
by its fallback-on-unparseable behaviour only through `vStr` returning the
stored size never being representable here; other value kinds take the
`default:` branch of the Go switch and fall back. -/
def byteSizeF (d : Doc) (key : String) (fallback : Nat) : Nat :=
  match lookupKey d key with
  | some (.vSize n) => n
  | some (.vInt n) => n.toNat
  | some _ => fallback
  | none => fallback

/-- Go `uint8(i)` conversion of a Go `int`: reduction modulo `2 ^ 8`. -/
def goUint8 (i : Int) : Nat :=
  (i % 256).toNat

/-- Go `uint32(i)` conversion of a Go `int`: reduction modulo `2 ^ 32`. -/
def goUint32 (i : Int) : Nat :=
  (i % 4294967296).toNat

/-!
Model of the fragment of Go `net/url` used by config.go:
`url.ParseRequestURI` and `url.URL.String()`.  Each function mirrors its
namesake in the Go standard library (the version contemporary to this
repository).  Strings are treated as sequences of code points; for ASCII
input this coincides exactly with the byte-level Go behaviour, and every
input these theorems exercise is ASCII.  (Non-ASCII code points are escaped
here as a single `%XX` of the code point modulo 256 where Go would escape
each UTF-8 byte; no theorem below depends on that case.)
-/

/-- Go `stringContainsCTLByte`: a byte below space, or DEL. -/
def isCtlChar (c : Char) : Bool :=
  c.toNat < 32 || c.toNat == 127

/-- Whether `shouldEscape(c, encodeHost)` holds in Go `net/url`: everything
is escaped except alphanumerics, the RFC 3986 unreserved marks `-._~`, and
the sub-delims plus host-specific extras: bang, dollar, ampersand,
single quote, parentheses, star, plus, comma, semicolon, equals, colon,
square brackets, angle brackets and double quote. -/
def shouldEscapeHost (c : Char) : Bool :=
  !(c.isAlphanum ||
    c ∈ ['-', '_', '.', '~'] ||
    c ∈ ['!', '$', '&', '\'', '(', ')', '*', '+', ',', ';', '=', ':', '[', ']', '<', '>', '"'])

/-- Whether `shouldEscape(c, encodePath)` holds in Go `net/url`: unreserved
characters and `$&+,/:;=@` survive; `?` and everything else is escaped. -/
def shouldEscapePath (c : Char) : Bool :=
  !(c.isAlphanum ||
    c ∈ ['-', '_', '.', '~'] ||
    c ∈ ['$', '&', '+', ',', '/', ':', ';', '=', '@'])

/-- Upper-case hex digit, as used by Go `net/url` escaping. -/
def upperHexDigit (n : Nat) : Char :=
  if n < 10 then Char.ofNat (48 + n) else Char.ofNat (55 + n % 16)

/-- Percent-escape `%XX` of a code point (Go escapes each byte; see the
section comment for the ASCII fidelity note). -/
def pctEncode (c : Char) : List Char :=
  ['%', upperHexDigit (c.toNat / 16 % 16), upperHexDigit (c.toNat % 16)]

/-- Go `escape(s, encodeHost)`. -/
def escapeHostList (cs : List Char) : List Char :=
  cs.flatMap fun c => if shouldEscapeHost c then pctEncode c else [c]

/-- Go `escape(s, encodePath)`, the escaping `URL.EscapedPath()` applies when
no valid `RawPath` hint is present (our model never carries a `RawPath`). -/
def escapePathList (cs : List Char) : List Char :=
  cs.flatMap fun c => if shouldEscapePath c then pctEncode c else [c]

/-- Hex digit test of Go `net/url` (`ishex`). -/
def isHexChar (c : Char) : Bool :=
  c.isDigit || ('a' ≤ c && c ≤ 'f') || ('A' ≤ c && c ≤ 'F')

/-- Hex digit value of Go `net/url` (`unhex`). -/
def hexVal (c : Char) : Nat :=
  if c.isDigit then c.toNat - 48
  else if 'a' ≤ c && c ≤ 'f' then c.toNat - 97 + 10
  else c.toNat - 65 + 10

/-- Go `unescape(s, mode)` for the modes without extra per-escape checks
(`encodePath`, `encodeUserPassword`): percent-decodes, failing exactly on a
`%` that is not followed by two hex digits. -/
def unescapePlain : List Char → Option (List Char)
  | [] => some []
  | c :: rest =>
    if c = '%' then
      match rest with
      | a :: b :: rest2 =>
        if isHexChar a && isHexChar b then
          (unescapePlain rest2).map (fun t => Char.ofNat (hexVal a * 16 + hexVal b) :: t)
        else none
      | _ => none
    else (unescapePlain rest).map (fun t => c :: t)

/-- Go `unescape(s, encodeHost)`: like `unescapePlain`, but additionally a
percent-escape of an ASCII byte — a value below `0x80` — is rejected
unless it is the literal `%25` (the Go original tests the first hex digit
being below 8 and the three bytes not being `"%25"`; with two valid hex
digits, value 37 and literal `%25` coincide).  In the host component,
percent-encoding may only introduce non-ASCII bytes, `%25` being the one
exception for IPv6 zone literals. -/
def unescapeHostList : List Char → Option (List Char)
  | [] => some []
  | c :: rest =>
    if c = '%' then
      match rest with
      | a :: b :: rest2 =>
        if isHexChar a && isHexChar b then
          let v := hexVal a * 16 + hexVal b
          if v = 37 || v ≥ 128 then
            (unescapeHostList rest2).map (fun t => Char.ofNat v :: t)
          else none
        else none
      | _ => none
    else (unescapeHostList rest).map (fun t => c :: t)

/-- Go `getScheme(rawURL)`: splits a leading `scheme:`.  Returns `none` for
the `missing protocol scheme` error (a `:` before any scheme character);
otherwise the scheme (possibly empty) and the remainder.  `orig` carries the
original input so that the scan can bail out to `("", rawURL)` exactly as the
Go loop does. -/
def getSchemeAux (orig : List Char) : List Char → List Char → Option (List Char × List Char)
  | _, [] => some ([], orig)
  | acc, c :: rest =>
    if c.isAlpha then getSchemeAux orig (acc ++ [c]) rest
    else if c.isDigit || c = '+' || c = '-' || c = '.' then
      if acc = [] then some ([], orig) else getSchemeAux orig (acc ++ [c]) rest
    else if c = ':' then
      if acc = [] then none else some (acc, rest)
    else some ([], orig)

/-- Entry point of `getScheme`. -/
def getScheme (raw : List Char) : Option (List Char × List Char) :=
  getSchemeAux raw [] raw

/-- Go `split(s, sep, cutc)`: split at the first occurrence of `sep`; when
the separator does not occur the second component is empty, and `cutc`
decides whether a found separator is dropped from the remainder. -/
def splitFirst (sep : Char) (cutc : Bool) : List Char → (List Char × List Char)
  | [] => ([], [])
  | c :: rest =>
    if c = sep then ([], if cutc then rest else c :: rest)
    else
      let p := splitFirst sep cutc rest
      (c :: p.1, p.2)

/-- Split at the last occurrence of `sep` (Go `strings.LastIndex`): `none`
when `sep` does not occur, otherwise the parts before and after it. -/
def splitLastAt (sep : Char) : List Char → Option (List Char × List Char)
  | [] => none
  | c :: rest =>
    match splitLastAt sep rest with
    | some (a, b) => some (c :: a, b)
    | none => if c = sep then some ([], rest) else none

/-- Go `validOptionalPort(port)`: empty, or `:` followed by digits only. -/
def validOptionalPort : List Char → Bool
  | [] => true
  | ':' :: rest => rest.all Char.isDigit
  | _ => false

/-- Go `parseHost(host)`: validates an optional `:port` suffix (after the
last `]` for a bracketed IPv6 literal, after the last `:` otherwise) and
percent-decodes the whole host in `encodeHost` mode.  The IPv6 zone
(`%25`-separated) three-part re-decoding of the Go original is not modelled;
no value in this development carries a bracketed host. -/
def parseHost (host : List Char) : Option (List Char) :=
  if host.head? = some '[' then
    match splitLastAt ']' host with
    | none => none
    | some (_, post) =>
      if validOptionalPort post then unescapeHostList host else none
  else
    match splitLastAt ':' host with
    | some (_, post) =>
      if validOptionalPort (':' :: post) then unescapeHostList host else none
    | none => unescapeHostList host

/-- Go `validUserinfo(s)`. -/
def validUserinfoChar (c : Char) : Bool :=
  c.isAlphanum ||
  c ∈ ['-', '.', '_', ':', '~', '!', '$', '&', '\'', '(', ')', '*', '+', ',', ';', '=', '%', '@']

/-- Go `parseAuthority(authority)`: everything after the last `@` is the
host; a userinfo part before it must pass `validUserinfo` and
percent-decode (the decoded `User` value itself is not kept, see `URL`). -/
def parseAuthority (authority : List Char) : Option (List Char) :=
  match splitLastAt '@' authority with
  | none => parseHost authority
  | some (userinfo, hostPart) =>
    match parseHost hostPart with
    | none => none
    | some host =>
      if userinfo.all validUserinfoChar && (unescapePlain userinfo).isSome then some host
      else none

/-- Go `URL.setPath(p)`: percent-decode into `Path` (the `RawPath` hint kept
by Go when the decoded form re-escapes differently is not modelled; no URL
in this development re-escapes differently). -/
def setPathChars (cs : List Char) : Option String :=
  (unescapePlain cs).map String.mk

/-- The tail of Go `parse(rawURL, viaRequest=true)` after scheme and query
extraction.  When the remainder does not start with `/`: with a scheme it is
an opaque (rootless) URI, without one `viaRequest` fails with
`invalid URI for request`.  When it starts with `//` and a scheme is
present, the part up to the next `/` is the authority (Go
`split(rest[2:], '/', false)` followed by `parseAuthority`); otherwise the
whole remainder is the path. -/
def parseAfterQuery (scheme : List Char) (fq : Bool) (rq : List Char) (rest : List Char) :
    Option URL :=
  if rest.head? = some '/' then
    if scheme ≠ [] ∧ rest.tail.head? = some '/' then
      let pr := splitFirst '/' false rest.tail.tail
      match parseAuthority pr.1 with
      | none => none
      | some host =>
        (setPathChars pr.2).map fun p =>
          ⟨String.mk scheme, "", String.mk host, p, fq, String.mk rq⟩
    else
      (setPathChars rest).map fun p =>
        ⟨String.mk scheme, "", "", p, fq, String.mk rq⟩
  else if scheme = [] then none
  else some ⟨String.mk scheme, String.mk rest, "", "", fq, String.mk rq⟩

/-- The query extraction of Go `parse` once the scheme is split off (the
scheme is lower-cased): a single trailing `?` sets `ForceQuery`; otherwise
the remainder is split at the first `?` into path part and `RawQuery`. -/
def parseWithScheme (schemeCs rest0 : List Char) : Option URL :=
  let scheme := schemeCs.map Char.toLower
  if rest0.getLast? = some '?' && !rest0.dropLast.contains '?' then
    parseAfterQuery scheme true [] rest0.dropLast
  else
    let pq := splitFirst '?' true rest0
    parseAfterQuery scheme false pq.2 pq.1

/-- Go `parse(rawURL, viaRequest=true)`, the body of
`url.ParseRequestURI`, over code points. -/
def parseList (raw : List Char) : Option URL :=
  if raw.any isCtlChar then none
  else if raw = [] then none
  else if raw = ['*'] then some ⟨"", "", "", "*", false, ""⟩
  else (getScheme raw).bind fun sr => parseWithScheme sr.1 sr.2

/-- Go `url.ParseRequestURI(s)`, with `none` for the error case. -/
def parseRequestURI (s : String) : Option URL :=
  parseList s.toList

/-- Whether Go `URL.String()` prepends `./` to a relative path: a `:`
occurs in the path before any `/`. -/
def needsDotSlash : List Char → Bool
  | [] => false
  | '/' :: _ => false
  | ':' :: _ => true
  | _ :: rest => needsDotSlash rest

/-- Go `URL.String()` restricted to the fields of our `URL` model (no user,
no fragment): scheme, `//` plus escaped host when an authority is present,
escaped path, query. -/
def urlString (u : URL) : String :=
  let schemePart := if u.Scheme ≠ "" then u.Scheme ++ ":" else ""
  let queryPart := if u.ForceQuery || u.RawQuery ≠ "" then "?" ++ u.RawQuery else ""
  if u.Opq ≠ "" then
    schemePart ++ u.Opq ++ queryPart
  else
    let authPart :=
      if u.Scheme ≠ "" || u.Host ≠ "" then
        (if u.Host ≠ "" || u.Path ≠ "" then "//" else "") ++ String.mk (escapeHostList u.Host.toList)
      else ""
    let p := String.mk (escapePathList u.Path.toList)
    let slashPart := if p ≠ "" && p.toList.head? ≠ some '/' && u.Host ≠ "" then "/" else ""
    let dotPart :=
      if schemePart ++ authPart = "" && needsDotSlash p.toList then "./" else ""
    schemePart ++ authPart ++ slashPart ++ dotPart ++ p ++ queryPart

/-!
The typed accessors of `driver/config/config.go`, one Lean definition per Go
method.  `Config` in Go carries only the provider and a logger; here each
accessor takes the document `d : Doc` (the provider state) and, where the Go
code consults the process environment, an `Env`.
-/

/-- Key constants of config.go (lines 36-95), as used below. -/
def ViperKeyDSN : String := "dsn"

/-- Model of `ViperKeySecretsDefault` (config.go line 45). -/
def ViperKeySecretsDefault : String := "secrets.default"

/-- Model of `ViperKeySecretsCookie` (config.go line 46). -/
def ViperKeySecretsCookie : String := "secrets.cookie"

/-- Model of `ViperKeyPublicBaseURL` (config.go line 47). -/
def ViperKeyPublicBaseURL : String := "serve.public.base_url"

/-- Model of `ViperKeyPublicPort` (config.go line 48). -/
def ViperKeyPublicPort : String := "serve.public.port"

/-- Model of `ViperKeyPublicHost` (config.go line 49). -/
def ViperKeyPublicHost : String := "serve.public.host"

/-- Model of `ViperKeyAdminBaseURL` (config.go line 50). -/
def ViperKeyAdminBaseURL : String := "serve.admin.base_url"

/-- Model of `ViperKeyAdminPort` (config.go line 51). -/
def ViperKeyAdminPort : String := "serve.admin.port"

/-- Model of `ViperKeyAdminHost` (config.go line 52). -/
def ViperKeyAdminHost : String := "serve.admin.host"

/-- Model of `ViperKeySessionSameSite` (config.go line 54). -/
def ViperKeySessionSameSite : String := "session.cookie.same_site"

/-- Model of `ViperKeySelfServiceStrategyConfig` (config.go line 58). -/
def ViperKeySelfServiceStrategyConfig : String := "selfservice.methods"

/-- Model of `ViperKeySelfServiceRegistrationAfter` (config.go line 63). -/
def ViperKeySelfServiceRegistrationAfter : String := "selfservice.flows.registration.after"

/-- Model of `ViperKeySelfServiceRegistrationBeforeHooks` (config.go line 64). -/
def ViperKeySelfServiceRegistrationBeforeHooks : String := "selfservice.flows.registration.before.hooks"

/-- Model of `ViperKeySelfServiceLoginAfter` (config.go line 67). -/
def ViperKeySelfServiceLoginAfter : String := "selfservice.flows.login.after"

/-- Model of `ViperKeySelfServiceLoginBeforeHooks` (config.go line 68). -/
def ViperKeySelfServiceLoginBeforeHooks : String := "selfservice.flows.login.before.hooks"

/-- Model of `ViperKeySelfServiceSettingsAfter` (config.go line 72). -/
def ViperKeySelfServiceSettingsAfter : String := "selfservice.flows.settings.after"

/-- Model of `ViperKeyDefaultIdentitySchemaURL` (config.go line 83). -/
def ViperKeyDefaultIdentitySchemaURL : String := "identity.default_schema_url"

/-- Model of `ViperKeyIdentitySchemas` (config.go line 84). -/
def ViperKeyIdentitySchemas : String := "identity.schemas"

/-- Model of `DefaultIdentityTraitsSchemaID` (config.go line 37). -/
def DefaultIdentityTraitsSchemaID : String := "default"

/-- Model of `DefaultSQLiteMemoryDSN` (config.go line 39). -/
def DefaultSQLiteMemoryDSN : String := "sqlite://:memory:?_fk=true"

/-- Model of `Argon2DefaultMemory = 128 * bytesize.MB` (config.go line 96);
`bytesize.MB` is `1024 * 1024` bytes. -/
def Argon2DefaultMemory : Nat := 128 * 1024 * 1024

/-- Model of `Argon2DefaultIterations` (config.go line 97). -/
def Argon2DefaultIterations : Nat := 1

/-- Model of `Argon2DefaultSaltLength` (config.go line 98). -/
def Argon2DefaultSaltLength : Nat := 16

/-- Model of `Argon2DefaultKeyLength` (config.go line 99). -/
def Argon2DefaultKeyLength : Nat := 32

/-- Model of `Argon2DefaultDuration = 500 * time.Millisecond` (config.go line 100),
in nanoseconds. -/
def Argon2DefaultDuration : Int := 500000000

/-- Model of `Argon2DefaultDeviation` (config.go line 101), in nanoseconds. -/
def Argon2DefaultDeviation : Int := 500000000

/-- Model of `Argon2DefaultDedicatedMemory = 1 * bytesize.GB` (config.go line 102). -/
def Argon2DefaultDedicatedMemory : Nat := 1024 * 1024 * 1024

/-- Model of `var Argon2DefaultParallelism = uint8(runtime.NumCPU() * 2)`
(config.go line 167): a package-level variable computed once at process
start from the environment, with the Go `uint8` conversion. -/
def Argon2DefaultParallelism (env : Env) : Nat :=
  goUint8 (env.numCPU * 2)

/-- Model of `Argon2` parameters struct (config.go lines 106-115). -/
structure Argon2 where
  Memory : Nat
  Iterations : Nat
  Parallelism : Nat
  SaltLength : Nat
  KeyLength : Nat
  ExpectedDuration : Int
  ExpectedDeviation : Int
  DedicatedMemory : Nat
deriving DecidableEq, Repr

/-- Model of `SelfServiceHook` struct (config.go lines 116-119): `Name` is the `hook`
field, `Config` the raw JSON of the `config` field. -/
structure SelfServiceHook where
  Name : String
  Config : String
deriving DecidableEq, Repr

/-- Model of `SelfServiceStrategy` struct (config.go lines 120-123).  Named with a
`Data` suffix because the accessor method of the same name is also
modelled. -/
structure SelfServiceStrategyData where
  Enabled : Bool
  Config : String
deriving DecidableEq, Repr

/-- Model of `IsInsecureDevMode` (config.go lines 617-619): the `dev` boolean. -/
def IsInsecureDevMode (d : Doc) : Bool :=
  boolKey d "dev"

/-- Model of `HasherArgon2` (config.go lines 259-272): each field independently read
with `...F` fallback accessors; the integer fields pass through the Go
`uint32` / `uint8` conversions of the original. -/
def HasherArgon2 (env : Env) (d : Doc) : Argon2 where
  Memory := byteSizeF d "hashers.argon2.memory" Argon2DefaultMemory
  Iterations := goUint32 (intF d "hashers.argon2.iterations" Argon2DefaultIterations)
  Parallelism := goUint8 (intF d "hashers.argon2.parallelism" (Argon2DefaultParallelism env))
  SaltLength := goUint32 (intF d "hashers.argon2.salt_length" Argon2DefaultSaltLength)
  KeyLength := goUint32 (intF d "hashers.argon2.key_length" Argon2DefaultKeyLength)
  ExpectedDuration := durationF d "hashers.argon2.expected_duration" Argon2DefaultDuration
  ExpectedDeviation := durationF d "hashers.argon2.expected_deviation" Argon2DefaultDeviation
  DedicatedMemory := byteSizeF d "hashers.argon2.dedicated_memory" Argon2DefaultDedicatedMemory

/-- Model of `listenOn` (config.go lines 274-286): fallback port 4434 for `admin`,
4433 otherwise; `Fatalf` (modelled `none`) when the port is below 1;
otherwise `"<host>:<port>"` with the host read verbatim (note: no hostname
substitution happens here). -/
def listenOn (d : Doc) (key : String) : Option String :=
  let fb : Int := if key = "admin" then 4434 else 4433
  let port := intF d ("serve." ++ key ++ ".port") fb
  if port < 1 then none
  else some (stringKey d ("serve." ++ key ++ ".host") ++ ":" ++ intDecimal port)

/-- Model of `AdminListenOn` (config.go lines 322-324). -/
def AdminListenOn (d : Doc) : Option String :=
  listenOn d "admin"

/-- Model of `PublicListenOn` (config.go lines 326-328). -/
def PublicListenOn (d : Doc) : Option String :=
  listenOn d "public"

/-- Model of `parseURIOrFail` (config.go lines 604-611): `url.ParseRequestURI` of the
string at `key`, `Fatalf` (modelled `none`) on parse error. -/
def parseURIOrFail (d : Doc) (key : String) : Option URL :=
  parseRequestURI (stringKey d key)

/-- Model of `DefaultIdentityTraitsSchemaURL` (config.go lines 288-290). -/
def DefaultIdentityTraitsSchemaURL (d : Doc) : Option URL :=
  parseURIOrFail d ViperKeyDefaultIdentitySchemaURL

/-- The explicit schema list stored under `identity.schemas`, as observed by
`IdentityTraitsSchemas` through `Marshal` + `gjson` + `json.Decode`: `none`
when the key yields no raw JSON array of schemas.  The marshal/decode round
trip of the Go original is kept structural (a stored `vSchemas` decodes to
itself); the fatal-logged decode-error branch returns the default-only list
in Go and cannot arise here. -/
def rawSchemas (d : Doc) (key : String) : Option (List Schema) :=
  match lookupKey d key with
  | some (.vSchemas ss) => some ss
  | _ => none

/-- Model of `IdentityTraitsSchemas` (config.go lines 292-320): the default schema
entry (ID `"default"`, URL the rendered default schema URL) alone when no
explicit list resolves, otherwise appended after the explicit schemas.
`none` models the fatal path of `DefaultIdentityTraitsSchemaURL`. -/
def IdentityTraitsSchemas (d : Doc) : Option (List Schema) :=
  (DefaultIdentityTraitsSchemaURL d).map fun u =>
    let ds : Schema := ⟨DefaultIdentityTraitsSchemaID, urlString u⟩
    if !existsKey d ViperKeyIdentitySchemas then [ds]
    else
      match rawSchemas d ViperKeyIdentitySchemas with
      | none => [ds]
      | some ss => ss ++ [ds]

/-- Model of `DSN` (config.go lines 330-343): the special value `"memory"` is
rewritten to the SQLite in-memory DSN; any other non-empty string is
returned verbatim; the empty/absent case is fatal (modelled `none`). -/
def DSN (d : Doc) : Option String :=
  let dsn := stringKey d ViperKeyDSN
  if dsn = "memory" then some DefaultSQLiteMemoryDSN
  else if dsn.length > 0 then some dsn
  else none

/-- Model of `HookStrategyKey` (config.go lines 169-171). -/
def HookStrategyKey (key strategy : String) : String :=
  key ++ "." ++ strategy ++ ".hooks"

/-- The hooks array stored at `key`, as observed by `selfServiceHooks`
through `Marshal` + `gjson` + strict decode: `none` when no raw JSON array
of hooks resolves at the key (the `len(config) == 0` branch).  As with
`rawSchemas`, the marshal/decode round trip is structural. -/
def rawHooks (d : Doc) (key : String) : Option (List HookJSON) :=
  match lookupKey d key with
  | some (.vHooks hs) => some hs
  | _ => none

/-- Normalisation applied to each decoded hook (config.go lines 389-393):
an empty `Config` becomes the JSON object `"{}"`. -/
def normalizeHook (h : HookJSON) : SelfServiceHook :=
  ⟨h.hook, if h.config = "" then "{}" else h.config⟩

/-- Model of `selfServiceHooks` (config.go lines 369-396): empty list when the key
does not exist or resolves to no raw JSON; otherwise the decoded hooks with
empty configs normalised to `"{}"`.  Total: no error is ever returned. -/
def selfServiceHooks (d : Doc) (key : String) : List SelfServiceHook :=
  if !existsKey d key then []
  else
    match rawHooks d key with
    | none => []
    | some hs => hs.map normalizeHook

/-- Model of `SelfServiceFlowLoginBeforeHooks` (config.go lines 361-363). -/
def SelfServiceFlowLoginBeforeHooks (d : Doc) : List SelfServiceHook :=
  selfServiceHooks d ViperKeySelfServiceLoginBeforeHooks

/-- Model of `SelfServiceFlowRegistrationBeforeHooks` (config.go lines 365-367). -/
def SelfServiceFlowRegistrationBeforeHooks (d : Doc) : List SelfServiceHook :=
  selfServiceHooks d ViperKeySelfServiceRegistrationBeforeHooks

/-- Model of `SelfServiceFlowLoginAfterHooks` (config.go lines 398-400). -/
def SelfServiceFlowLoginAfterHooks (d : Doc) (strategy : String) : List SelfServiceHook :=
  selfServiceHooks d (HookStrategyKey ViperKeySelfServiceLoginAfter strategy)

/-- Model of `SelfServiceFlowSettingsAfterHooks` (config.go lines 402-404). -/
def SelfServiceFlowSettingsAfterHooks (d : Doc) (strategy : String) : List SelfServiceHook :=
  selfServiceHooks d (HookStrategyKey ViperKeySelfServiceSettingsAfter strategy)

/-- Model of `SelfServiceFlowRegistrationAfterHooks` (config.go lines 406-408). -/
def SelfServiceFlowRegistrationAfterHooks (d : Doc) (strategy : String) : List SelfServiceHook :=
  selfServiceHooks d (HookStrategyKey ViperKeySelfServiceRegistrationAfter strategy)

/-- The raw JSON text at `selfservice.methods.<strategy>.config`, as
observed by `SelfServiceStrategy` through `Marshal` + `gjson`; `""` when
nothing resolves.  Stored raw fragments are modelled by `vRaw`. -/
def rawStrategyConfig (d : Doc) (strategy : String) : String :=
  match lookupKey d (ViperKeySelfServiceStrategyConfig ++ "." ++ strategy ++ ".config") with
  | some (.vRaw c) => c
  | _ => ""

/-- Model of `SelfServiceStrategy` (config.go lines 410-444): config defaults to
`"{}"` unless a non-empty raw fragment resolves; `Enabled` reads the
`enabled` key as a boolean, then — when that key does not exist at all — is
forced to `true` for the strategies `password`, `profile` and `link`. -/
def SelfServiceStrategy (d : Doc) (strategy : String) : SelfServiceStrategyData :=
  let config0 := rawStrategyConfig d strategy
  let config := if config0.length > 0 then config0 else "{}"
  let enabledKey := ViperKeySelfServiceStrategyConfig ++ "." ++ strategy ++ ".enabled"
  let enabled0 := boolKey d enabledKey
  let enabled :=
    if !existsKey d enabledKey &&
        (strategy = "password" || strategy = "profile" || strategy = "link") then
      true
    else enabled0
  ⟨enabled, if config.length = 0 then "{}" else config⟩

/-- The provisioning state threaded through `SecretsDefault`: the document,
the index into the UUID stream (how many UUIDs the process consumed so far),
and a counter of `Set` calls performed on the source, used to observe how
often the store is written. -/
structure ProvState where
  doc : Doc
  uuidCtr : Nat
  writes : Nat
deriving Repr

/-- Model of `SecretsDefault` (config.go lines 446-460): reads the string list at
`secrets.default`; when it is empty, generates one UUID, persists it via
`MustSet` and returns it.  The `[][]byte` result is kept as the list of its
originating strings (see the file comment). -/
def SecretsDefault (env : Env) (st : ProvState) : List String × ProvState :=
  let secrets := stringsKey st.doc ViperKeySecretsDefault
  if secrets.length = 0 then
    let secrets := [env.uuids st.uuidCtr]
    let doc := setKey st.doc ViperKeySecretsDefault (.vStrs secrets)
    (secrets, ⟨doc, st.uuidCtr + 1, st.writes + 1⟩)
  else
    (secrets, st)

/-- Model of `SecretsSession` (config.go lines 462-474): the cookie secrets when
configured non-empty, otherwise the (possibly just-provisioned) default
set. -/
def SecretsSession (env : Env) (st : ProvState) : List String × ProvState :=
  let secrets := stringsKey st.doc ViperKeySecretsCookie
  if secrets.length = 0 then SecretsDefault env st
  else (secrets, st)

/-- The host part used by `guessBaseURL` (config.go lines 483-491): the
configured host, except that `"0.0.0.0"` and the empty string are replaced
by the process hostname, falling back to `"127.0.0.1"` when the hostname
lookup fails. -/
def guessHost (env : Env) (d : Doc) (keyHost : String) : String :=
  let host := stringKey d keyHost
  if host = "0.0.0.0" || host.length = 0 then
    match env.hostname with
    | some h => h
    | none => "127.0.0.1"
  else host

/-- Model of `guessBaseURL` (config.go lines 480-499): scheme `https` (`http` in
insecure dev mode), host `"<host>:<port>"` with the port read with the given
fallback, path `/`. -/
def guessBaseURL (env : Env) (d : Doc) (keyHost keyPort : String) (defaultPort : Int) : URL :=
  { Scheme := if IsInsecureDevMode d then "http" else "https"
    Opq := ""
    Host := guessHost env d keyHost ++ ":" ++ intDecimal (intF d keyPort defaultPort)
    Path := "/"
    ForceQuery := false
    RawQuery := "" }

/-- Model of `baseURL` (config.go lines 501-518): a stored structured URL is returned
verbatim; a stored string is parsed as a request URI, falling back to the
guess on parse error; anything else (including an absent key) guesses. -/
def baseURL (env : Env) (d : Doc) (keyURL keyHost keyPort : String) (defaultPort : Int) : URL :=
  match lookupKey d keyURL with
  | some (.vURL u) => u
  | some (.vStr s) => (parseRequestURI s).getD (guessBaseURL env d keyHost keyPort defaultPort)
  | _ => guessBaseURL env d keyHost keyPort defaultPort

/-- Model of `SelfPublicURL` (config.go lines 520-522). -/
def SelfPublicURL (env : Env) (d : Doc) : URL :=
  baseURL env d ViperKeyPublicBaseURL ViperKeyPublicHost ViperKeyPublicPort 4433

/-- Model of `SelfAdminURL` (config.go lines 524-526). -/
def SelfAdminURL (env : Env) (d : Doc) : URL :=
  baseURL env d ViperKeyAdminBaseURL ViperKeyAdminHost ViperKeyAdminPort 4434

/-- Go `http.SameSite` cookie modes. -/
inductive SameSite where
  | defaultMode
  | laxMode
  | strictMode
  | noneMode
deriving DecidableEq, Repr

/-- Model of `SessionSameSiteMode` (config.go lines 645-655): the string at
`session.cookie.same_site` with configured fallback `"Lax"`, mapped through
the `Lax` / `Strict` / `None` switch; everything else yields the
unspecified default mode. -/
def SessionSameSiteMode (d : Doc) : SameSite :=
  let s := stringF d ViperKeySessionSameSite "Lax"
  if s = "Lax" then SameSite.laxMode
  else if s = "Strict" then SameSite.strictMode
  else if s = "None" then SameSite.noneMode
  else SameSite.defaultMode

/-- The explicit schema list `IdentityTraitsSchemas` observes under
`identity.schemas` before appending the default entry: empty when the key
does not exist or resolves to no raw schema array. -/
def explicitSchemas (d : Doc) : List Schema :=
  if !existsKey d ViperKeyIdentitySchemas then []
  else (rawSchemas d ViperKeyIdentitySchemas).getD []

/-- A concrete process environment used by witnesses and counterexamples:
hostname `myhost`, 4 CPUs, a fixed UUID stream. -/
def envA : Env :=
  ⟨some "myhost", 4, fun _ => "4ae124a0-90cb-42a8-8f5a-257e8a0d9a4a"⟩

/-- A process environment for a 128-CPU host. -/
def envCpu128 : Env :=
  ⟨some "myhost", 128, fun _ => "4ae124a0-90cb-42a8-8f5a-257e8a0d9a4a"⟩

/-- Document of the C5 scenario: `{"serve":{"public":{"port":4455}},"dev":true}`. -/
def docDevPort : Doc :=
  [(ViperKeyPublicPort, .vInt 4455), ("dev", .vBool true)]

/-- A document whose explicit schema list itself uses the ID `default`. -/
def docDupSchema : Doc :=
  [(ViperKeyDefaultIdentitySchemaURL, .vStr "http://a/b"),
   (ViperKeyIdentitySchemas, .vSchemas [⟨"default", "http://other/x"⟩])]

/-- A document with one explicit (non-default) identity schema. -/
def docOneSchema : Doc :=
  [(ViperKeyDefaultIdentitySchemaURL, .vStr "http://a/b"),
   (ViperKeyIdentitySchemas, .vSchemas [⟨"employee", "http://other/x"⟩])]

/-- A document whose public host is configured as `0.0.0.0`. -/
def docZeroHost : Doc :=
  [(ViperKeyPublicHost, .vStr "0.0.0.0")]

/-- A document whose public host contains a character (`/`) that host
escaping rewrites. -/
def docSlashHost : Doc :=
  [(ViperKeyPublicHost, .vStr "a/b")]

/-- Document of the C7 scenario: `{"hashers":{"argon2":{"iterations":3}}}`. -/
def docIter3 : Doc :=
  [("hashers.argon2.iterations", .vInt 3)]

/-- Characters that survive a host round trip unchanged: not escaped by
`encodeHost`, not a control character, and not one of the delimiters the
URL grammar assigns meaning to. -/
def plainHostChar (c : Char) : Bool :=
  !shouldEscapeHost c && !isCtlChar c && !(c ∈ [':', '/', '?', '@', '[', ']', '%'])

/-!
Helper lemmas about the `net/url` model, leading to the round-trip theorem
for guessed base URLs (claim C9) and its counterexample.
-/

theorem digit_not_ctl {c : Char} (h : c.isDigit = true) : isCtlChar c = false := by
  simp [Char.isDigit, Char.le_def, UInt32.le_def, BitVec.le_def] at h
  simp [isCtlChar, Char.toNat, UInt32.toNat]
  omega

theorem digit_not_escapeHost {c : Char} (h : c.isDigit = true) : shouldEscapeHost c = false := by
  simp [shouldEscapeHost, Char.isAlphanum, Char.isAlpha, h]

theorem digit_ne {c x : Char} (h : c.isDigit = true) (hx : x.isDigit = false) : c ≠ x := by
  intro he
  rw [he, hx] at h
  exact Bool.noConfusion h

theorem escapeHostList_id {cs : List Char} (h : ∀ c ∈ cs, shouldEscapeHost c = false) :
    escapeHostList cs = cs := by
  induction cs with
  | nil => rfl
  | cons c rest ih =>
    simp [escapeHostList] at ih ⊢
    rw [h c (List.mem_cons_self c rest)]
    simp [ih fun x hx => h x (List.mem_cons_of_mem c hx)]

theorem splitFirst_no_sep {sep : Char} {cutc : Bool} {cs : List Char} (h : sep ∉ cs) :
    splitFirst sep cutc cs = (cs, []) := by
  induction cs with
  | nil => rfl
  | cons c rest ih =>
    simp at h
    simp [splitFirst, Ne.symm h.1, ih h.2]

theorem splitFirst_append_sep {sep : Char} {cutc : Bool} {xs ys : List Char} (h : sep ∉ xs) :
    splitFirst sep cutc (xs ++ sep :: ys) = (xs, if cutc then ys else sep :: ys) := by
  induction xs with
  | nil => simp [splitFirst]
  | cons c rest ih =>
    simp at h
    simp [splitFirst, Ne.symm h.1, ih h.2]

theorem splitLastAt_none {sep : Char} {cs : List Char} (h : sep ∉ cs) :
    splitLastAt sep cs = none := by
  induction cs with
  | nil => rfl
  | cons c rest ih =>
    simp at h
    simp [splitLastAt, ih h.2, Ne.symm h.1]

theorem splitLastAt_append {sep : Char} {xs ys : List Char} (hx : sep ∉ xs) (hy : sep ∉ ys) :
    splitLastAt sep (xs ++ sep :: ys) = some (xs, ys) := by
  induction xs with
  | nil => simp [splitLastAt, splitLastAt_none hy]
  | cons c rest ih =>
    simp at hx
    simp [splitLastAt, ih hx.2]

theorem unescapeHostList_id {cs : List Char} (h : '%' ∉ cs) :
    unescapeHostList cs = some cs := by
  induction cs with
  | nil => rfl
  | cons c rest ih =>
    simp at h
    unfold unescapeHostList
    rw [if_neg (Ne.symm h.1)]
    rw [ih h.2]
    rfl

theorem isDigit_ofNat {k : Nat} (h : k < 10) : (Char.ofNat (48 + k)).isDigit = true := by
  interval_cases k <;> decide

theorem natDecimalAux_digits {fuel n : Nat} : ∀ c ∈ natDecimalAux fuel n, c.isDigit = true := by
  induction fuel generalizing n with
  | zero => simp [natDecimalAux]
  | succ f ih =>
    intro c hc
    rw [natDecimalAux] at hc
    split at hc
    · simp at hc
      subst hc
      rename_i hn
      exact isDigit_ofNat hn
    · rw [List.mem_append] at hc
      rcases hc with hc | hc
      · exact ih c hc
      · simp at hc
        subst hc
        exact isDigit_ofNat (Nat.mod_lt _ (by omega))

theorem natDecimal_digits {n : Nat} : ∀ c ∈ natDecimal n, c.isDigit = true :=
  natDecimalAux_digits

theorem natDecimalAux_ne_nil {fuel n : Nat} (h : fuel ≠ 0) : natDecimalAux fuel n ≠ [] := by
  match fuel with
  | 0 => exact absurd rfl h
  | f + 1 =>
    rw [natDecimalAux]
    split
    · simp
    · simp

theorem natDecimal_ne_nil {n : Nat} : natDecimal n ≠ [] :=
  natDecimalAux_ne_nil (by omega)

theorem getScheme_http (r : List Char) :
    getScheme ('h' :: 't' :: 't' :: 'p' :: ':' :: r) = some (['h', 't', 't', 'p'], r) := rfl

theorem getScheme_https (r : List Char) :
    getScheme ('h' :: 't' :: 't' :: 'p' :: 's' :: ':' :: r) = some (['h', 't', 't', 'p', 's'], r) := rfl

theorem plainHostChar_spec {c : Char} (h : plainHostChar c = true) :
    shouldEscapeHost c = false ∧ isCtlChar c = false ∧
    c ≠ ':' ∧ c ≠ '/' ∧ c ≠ '?' ∧ c ≠ '@' ∧ c ≠ '[' ∧ c ≠ ']' ∧ c ≠ '%' := by
  simp [plainHostChar] at h
  obtain ⟨⟨h1, h2⟩, h3, h4, h5, h6, h7, h8, h9⟩ := h
  exact ⟨h1, h2, h3, h4, h5, h6, h7, h8, h9⟩

theorem parseAuthority_plain {hCs dCs : List Char}
    (hh : ∀ c ∈ hCs, plainHostChar c = true)
    (hd : ∀ c ∈ dCs, c.isDigit = true) :
    parseAuthority (hCs ++ ':' :: dCs) = some (hCs ++ ':' :: dCs) := by
  have hat : '@' ∉ hCs ++ ':' :: dCs := by
    intro hmem
    rw [List.mem_append] at hmem
    rcases hmem with hm | hm
    · exact (plainHostChar_spec (hh _ hm)).2.2.2.2.2.1 rfl
    · rcases List.mem_cons.mp hm with hm | hm
      · exact absurd hm (by decide)
      · exact digit_ne (hd _ hm) (by decide) rfl
  have hpct : '%' ∉ hCs ++ ':' :: dCs := by
    intro hmem
    rw [List.mem_append] at hmem
    rcases hmem with hm | hm
    · exact (plainHostChar_spec (hh _ hm)).2.2.2.2.2.2.2.2 rfl
    · rcases List.mem_cons.mp hm with hm | hm
      · exact absurd hm (by decide)
      · exact digit_ne (hd _ hm) (by decide) rfl
  have hcolon : ':' ∉ hCs := fun hm => (plainHostChar_spec (hh _ hm)).2.2.1 rfl
  have hcd : ':' ∉ dCs := fun hm => digit_ne (hd _ hm) (by decide) rfl
  have hbr : (hCs ++ ':' :: dCs).head? ≠ some '[' := by
    cases hCs with
    | nil => simp
    | cons c rest =>
      simp only [List.cons_append, List.head?_cons]
      intro he
      injection he with he
      exact (plainHostChar_spec (hh c (List.mem_cons_self c rest))).2.2.2.2.2.2.1 he
  unfold parseAuthority
  rw [splitLastAt_none hat]
  unfold parseHost
  rw [if_neg hbr]
  rw [splitLastAt_append hcolon hcd]
  have hdig : dCs.all Char.isDigit = true := List.all_eq_true.mpr fun c hc => hd c hc
  simp only [validOptionalPort, hdig, if_true]
  exact unescapeHostList_id hpct

theorem setPathChars_slash : setPathChars ['/'] = some "/" := rfl

theorem not_mem_host_aux {hCs dCs : List Char}
    (hh : ∀ c ∈ hCs, plainHostChar c = true) (hd : ∀ c ∈ dCs, c.isDigit = true)
    {x : Char} (hp : plainHostChar x = false) (hdx : x.isDigit = false) (hx : x ≠ ':') :
    x ∉ hCs ++ ':' :: dCs := by
  intro hm
  rw [List.mem_append, List.mem_cons] at hm
  rcases hm with hm | hm | hm
  · rw [hh x hm] at hp; exact Bool.noConfusion hp
  · exact hx hm
  · rw [hd x hm] at hdx; exact Bool.noConfusion hdx

theorem parseAfterQuery_authority {scheme hostCs : List Char} (hs : scheme ≠ [])
    (hsl : '/' ∉ hostCs)
    (hauth : parseAuthority hostCs = some hostCs) :
    parseAfterQuery scheme false [] ('/' :: '/' :: (hostCs ++ ['/'])) =
      some ⟨String.mk scheme, "", String.mk hostCs, "/", false, ""⟩ := by
  have hsplit : splitFirst '/' false (hostCs ++ ['/']) = (hostCs, ['/']) := by
    have := @splitFirst_append_sep '/' false hostCs [] hsl
    simpa using this
  unfold parseAfterQuery
  simp only [List.head?_cons, List.tail_cons, if_true, and_true]
  rw [if_pos hs]
  rw [hsplit]
  simp only [hauth]
  rw [setPathChars_slash]
  rfl

theorem parseList_roundtrip {schCs hostCs : List Char}
    (hsch : schCs = ['h', 't', 't', 'p'] ∨ schCs = ['h', 't', 't', 'p', 's'])
    (hctlH : ∀ c ∈ hostCs, isCtlChar c = false)
    (hnq : '?' ∉ hostCs) (hns : '/' ∉ hostCs)
    (hauth : parseAuthority hostCs = some hostCs) :
    parseList (schCs ++ ':' :: '/' :: '/' :: (hostCs ++ ['/'])) =
      some ⟨String.mk schCs, "", String.mk hostCs, "/", false, ""⟩ := by
  have hany : (schCs ++ ':' :: '/' :: '/' :: (hostCs ++ ['/'])).any isCtlChar = false := by
    rw [List.any_eq_false]
    intro c hc
    rw [List.mem_append, List.mem_cons, List.mem_cons, List.mem_cons, List.mem_append,
      List.mem_singleton] at hc
    rcases hc with hc | hc | hc | hc | hc | hc
    · rcases hsch with rfl | rfl
      · simp only [List.mem_cons, List.not_mem_nil, or_false] at hc
        rcases hc with rfl | rfl | rfl | rfl <;> decide
      · simp only [List.mem_cons, List.not_mem_nil, or_false] at hc
        rcases hc with rfl | rfl | rfl | rfl | rfl <;> decide
    · subst hc; decide
    · subst hc; decide
    · subst hc; decide
    · rw [hctlH c hc]; decide
    · subst hc; decide
  have hlast : ('/' :: '/' :: (hostCs ++ ['/'])).getLast? = some '/' := by
    rw [show '/' :: '/' :: (hostCs ++ ['/']) = ('/' :: '/' :: hostCs) ++ ['/'] by simp]
    exact List.getLast?_concat _
  have hnq2 : '?' ∉ '/' :: '/' :: (hostCs ++ ['/']) := by
    rw [List.mem_cons, List.mem_cons, List.mem_append, List.mem_singleton]
    push_neg
    exact ⟨by decide, by decide, hnq, by decide⟩
  have hne : schCs ≠ [] := by rcases hsch with rfl | rfl <;> simp
  rcases hsch with rfl | rfl
  · rw [show (['h', 't', 't', 'p'] ++ ':' :: '/' :: '/' :: (hostCs ++ ['/'])) =
      'h' :: 't' :: 't' :: 'p' :: ':' :: '/' :: '/' :: (hostCs ++ ['/']) by simp] at hany ⊢
    rw [parseList]
    rw [hany]
    simp only [Bool.false_eq_true, if_false]
    rw [if_neg (by simp), if_neg (by simp)]
    rw [getScheme_http]
    rw [Option.some_bind]
    rw [parseWithScheme]
    rw [hlast]
    simp only [show (decide (some '/' = some '?')) = false by decide, Bool.false_and,
      Bool.false_eq_true, if_false]
    rw [splitFirst_no_sep hnq2]
    rw [show (['h', 't', 't', 'p'].map Char.toLower) = ['h', 't', 't', 'p'] from by decide]
    exact parseAfterQuery_authority (by simp) hns hauth
  · rw [show (['h', 't', 't', 'p', 's'] ++ ':' :: '/' :: '/' :: (hostCs ++ ['/'])) =
      'h' :: 't' :: 't' :: 'p' :: 's' :: ':' :: '/' :: '/' :: (hostCs ++ ['/']) by simp] at hany ⊢
    rw [parseList]
    rw [hany]
    simp only [Bool.false_eq_true, if_false]
    rw [if_neg (by simp), if_neg (by simp)]
    rw [getScheme_https]
    rw [Option.some_bind]
    rw [parseWithScheme]
    rw [hlast]
    simp only [show (decide (some '/' = some '?')) = false by decide, Bool.false_and,
      Bool.false_eq_true, if_false]
    rw [splitFirst_no_sep hnq2]
    rw [show (['h', 't', 't', 'p', 's'].map Char.toLower) = ['h', 't', 't', 'p', 's'] from by decide]
    exact parseAfterQuery_authority (by simp) hns hauth

theorem toListAppend (a b : String) : (a ++ b).toList = a.toList ++ b.toList := rfl

theorem toListMk (l : List Char) : (String.mk l).toList = l := rfl

theorem dataAppend (a b : String) : (a ++ b).data = a.data ++ b.data := rfl

theorem urlString_guess_toList {sch host : String} (hsch : sch = "http" ∨ sch = "https")
    (hhost : ∀ c ∈ host.toList, shouldEscapeHost c = false) :
    (urlString ⟨sch, "", host, "/", false, ""⟩).toList =
      sch.toList ++ ':' :: '/' :: '/' :: (host.toList ++ ['/']) := by
  have hesc : escapeHostList host.toList = host.toList := escapeHostList_id hhost
  rcases hsch with rfl | rfl
  · rw [urlString]
    simp only [hesc]
    simp [String.ext_iff, dataAppend, toListMk,
      show escapePathList ['/'] = ['/'] from by decide]
  · rw [urlString]
    simp only [hesc]
    simp [String.ext_iff, dataAppend, toListMk,
      show escapePathList ['/'] = ['/'] from by decide]

/-- C9 (amended): for every document, environment and key pair whose
effective guessed host consists only of characters that need no host
escaping and are no URL delimiters, and whose effective port is
non-negative, the string form of the URL produced by `guessBaseURL`
reparses as a request URI to exactly the guessed URL.  (The unamended
claim, quantifying over every host and port, fails: see the
counterexample, where an escaped host character makes the reparse
fail.) -/
theorem guessBaseURL_roundtrip (env : Env) (d : Doc) (keyHost keyPort : String)
    (defaultPort : Int)
    (hh : ∀ c ∈ (guessHost env d keyHost).toList, plainHostChar c = true)
    (hp : 0 ≤ intF d keyPort defaultPort) :
    parseRequestURI (urlString (guessBaseURL env d keyHost keyPort defaultPort)) =
      some (guessBaseURL env d keyHost keyPort defaultPort) := by
  have hport : ¬ intF d keyPort defaultPort < 0 := not_lt.mpr hp
  have hdec : intDecimal (intF d keyPort defaultPort) =
      String.mk (natDecimal (intF d keyPort defaultPort).toNat) := by
    rw [intDecimal, if_neg hport]
  have hd : ∀ c ∈ (intDecimal (intF d keyPort defaultPort)).toList, c.isDigit = true := by
    rw [hdec]
    exact natDecimal_digits
  have hlist : (guessHost env d keyHost ++ ":" ++ intDecimal (intF d keyPort defaultPort)).toList =
      (guessHost env d keyHost).toList ++ ':' :: (intDecimal (intF d keyPort defaultPort)).toList := by
    simp [toListAppend]
  have hauth : parseAuthority ((guessHost env d keyHost).toList ++ ':' ::
      (intDecimal (intF d keyPort defaultPort)).toList) =
      some ((guessHost env d keyHost).toList ++ ':' ::
        (intDecimal (intF d keyPort defaultPort)).toList) :=
    parseAuthority_plain hh hd
  have hctlH : ∀ c ∈ (guessHost env d keyHost).toList ++ ':' ::
      (intDecimal (intF d keyPort defaultPort)).toList, isCtlChar c = false := by
    intro c hc
    rw [List.mem_append, List.mem_cons] at hc
    rcases hc with hc | hc | hc
    · exact (plainHostChar_spec (hh _ hc)).2.1
    · subst hc; decide
    · exact digit_not_ctl (hd _ hc)
  have hnq : '?' ∉ (guessHost env d keyHost).toList ++ ':' ::
      (intDecimal (intF d keyPort defaultPort)).toList :=
    not_mem_host_aux hh hd (by decide) (by decide) (by decide)
  have hns : '/' ∉ (guessHost env d keyHost).toList ++ ':' ::
      (intDecimal (intF d keyPort defaultPort)).toList :=
    not_mem_host_aux hh hd (by decide) (by decide) (by decide)
  have hescH : ∀ c ∈ (guessHost env d keyHost ++ ":" ++
      intDecimal (intF d keyPort defaultPort)).toList, shouldEscapeHost c = false := by
    rw [hlist]
    intro c hc
    rw [List.mem_append, List.mem_cons] at hc
    rcases hc with hc | hc | hc
    · exact (plainHostChar_spec (hh _ hc)).1
    · subst hc; decide
    · exact digit_not_escapeHost (hd _ hc)
  by_cases hdev : IsInsecureDevMode d = true
  · have hurl := @urlString_guess_toList "http"
      (guessHost env d keyHost ++ ":" ++ intDecimal (intF d keyPort defaultPort))
      (Or.inl rfl) hescH
    rw [show guessBaseURL env d keyHost keyPort defaultPort =
      ⟨"http", "", guessHost env d keyHost ++ ":" ++ intDecimal (intF d keyPort defaultPort),
        "/", false, ""⟩ from by rw [guessBaseURL, hdev]; rfl]
    rw [parseRequestURI, hurl, hlist]
    rw [show "http".toList = ['h', 't', 't', 'p'] from rfl]
    rw [parseList_roundtrip (Or.inl rfl) hctlH hnq hns hauth]
    rw [← hlist]
    rfl
  · have hdev2 : IsInsecureDevMode d = false := Bool.eq_false_iff.mpr hdev
    have hurl := @urlString_guess_toList "https"
      (guessHost env d keyHost ++ ":" ++ intDecimal (intF d keyPort defaultPort))
      (Or.inr rfl) hescH
    rw [show guessBaseURL env d keyHost keyPort defaultPort =
      ⟨"https", "", guessHost env d keyHost ++ ":" ++ intDecimal (intF d keyPort defaultPort),
        "/", false, ""⟩ from by rw [guessBaseURL, hdev2]; rfl]
    rw [parseRequestURI, hurl, hlist]
    rw [show "https".toList = ['h', 't', 't', 'p', 's'] from rfl]
    rw [parseList_roundtrip (Or.inr rfl) hctlH hnq hns hauth]
    rw [← hlist]
    rfl

/-!
The claim theorems.  Each theorem carries the claim id of the specification
sentence it settles.
-/

/-- C1: on a document where `secrets.default` resolves to an empty list, two
successive `SecretsDefault` calls return the same non-empty secret list, the
source is written exactly once (during the first call), and on every
document the result is non-empty. -/
theorem secretsDefault_provisioning (env : Env) (st : ProvState)
    (h : stringsKey st.doc ViperKeySecretsDefault = []) :
    (SecretsDefault env st).1 = (SecretsDefault env (SecretsDefault env st).2).1 ∧
    (SecretsDefault env st).1 ≠ [] ∧
    (SecretsDefault env st).2.writes = st.writes + 1 ∧
    (SecretsDefault env (SecretsDefault env st).2).2.writes = (SecretsDefault env st).2.writes ∧
    ∀ st' : ProvState, (SecretsDefault env st').1 ≠ [] := by
  have h2 : SecretsDefault env st =
      ([env.uuids st.uuidCtr],
        ⟨setKey st.doc ViperKeySecretsDefault (.vStrs [env.uuids st.uuidCtr]),
          st.uuidCtr + 1, st.writes + 1⟩) := by
    rw [SecretsDefault, h]
    rfl
  have h3 : stringsKey (setKey st.doc ViperKeySecretsDefault
      (.vStrs [env.uuids st.uuidCtr])) ViperKeySecretsDefault = [env.uuids st.uuidCtr] := by
    rw [stringsKey, setKey, lookupKey]
    rw [if_pos rfl]
  refine ⟨?_, ?_, ?_, ?_, ?_⟩
  · rw [h2]
    rw [SecretsDefault, h3]
    rfl
  · rw [h2]
    simp
  · rw [h2]
  · rw [h2]
    rw [SecretsDefault, h3]
    rfl
  · intro st'
    rw [SecretsDefault]
    split
    · simp
    · rename_i hlen
      intro hc
      apply hlen
      have hc2 : stringsKey st'.doc ViperKeySecretsDefault = [] := hc
      rw [hc2]
      rfl

/-- Witness for C1 at the empty document. -/
theorem secretsDefault_provisioning_witness :
    stringsKey ([] : Doc) ViperKeySecretsDefault = [] ∧
    ((SecretsDefault envA ⟨[], 0, 0⟩).1 =
        (SecretsDefault envA (SecretsDefault envA ⟨[], 0, 0⟩).2).1 ∧
      (SecretsDefault envA ⟨[], 0, 0⟩).1 ≠ [] ∧
      (SecretsDefault envA ⟨[], 0, 0⟩).2.writes = 0 + 1 ∧
      (SecretsDefault envA (SecretsDefault envA ⟨[], 0, 0⟩).2).2.writes =
        (SecretsDefault envA ⟨[], 0, 0⟩).2.writes ∧
      ∀ st' : ProvState, (SecretsDefault envA st').1 ≠ []) :=
  ⟨rfl, secretsDefault_provisioning envA ⟨[], 0, 0⟩ rfl⟩

/-- C2: when `selfservice.methods.<name>.enabled` does not exist at all,
the strategy is reported enabled exactly for `password`, `profile` and
`link`, and disabled for every other strategy name. -/
theorem selfServiceStrategy_forced_defaults (d : Doc) (strategy : String)
    (h : existsKey d (ViperKeySelfServiceStrategyConfig ++ "." ++ strategy ++ ".enabled") = false) :
    ((strategy = "password" ∨ strategy = "profile" ∨ strategy = "link") →
      (SelfServiceStrategy d strategy).Enabled = true) ∧
    (¬(strategy = "password" ∨ strategy = "profile" ∨ strategy = "link") →
      (SelfServiceStrategy d strategy).Enabled = false) := by
  have hnone : lookupKey d (ViperKeySelfServiceStrategyConfig ++ "." ++ strategy ++ ".enabled") = none := by
    cases hl : lookupKey d (ViperKeySelfServiceStrategyConfig ++ "." ++ strategy ++ ".enabled") with
    | none => rfl
    | some v =>
      rw [existsKey, hl] at h
      exact absurd h (by simp)
  constructor
  · intro hmem
    rw [SelfServiceStrategy]
    simp only [h]
    have : (strategy = "password" || strategy = "profile" || strategy = "link") = true := by
      rcases hmem with rfl | rfl | rfl <;> decide
    simp [this]
  · intro hmem
    push_neg at hmem
    rw [SelfServiceStrategy]
    simp only [h]
    have : (strategy = "password" || strategy = "profile" || strategy = "link") = false := by
      simp only [Bool.or_eq_false_iff, decide_eq_false_iff_not]
      exact ⟨⟨hmem.1, hmem.2.1⟩, hmem.2.2⟩
    simp [this, boolKey, hnone]

/-- Witness for C2: on the empty document `password` is enabled and `oidc`
is not. -/
theorem selfServiceStrategy_forced_defaults_witness :
    (SelfServiceStrategy [] "password").Enabled = true ∧
    (SelfServiceStrategy [] "oidc").Enabled = false :=
  ⟨(selfServiceStrategy_forced_defaults [] "password" rfl).1 (Or.inl rfl),
   (selfServiceStrategy_forced_defaults [] "oidc" rfl).2 (by decide)⟩

/-- C10: `DSN` rewrites the configured value `memory` to the SQLite
in-memory DSN literal, returns any other non-empty string verbatim, and is
fatal (`none`) when the value is empty or absent. -/
theorem dsn_memory_rewrite (d : Doc) :
    DefaultSQLiteMemoryDSN = "sqlite://:memory:?_fk=true" ∧
    (lookupKey d ViperKeyDSN = some (.vStr "memory") → DSN d = some DefaultSQLiteMemoryDSN) ∧
    (∀ s, lookupKey d ViperKeyDSN = some (.vStr s) → s ≠ "memory" → s ≠ "" →
      DSN d = some s) ∧
    (lookupKey d ViperKeyDSN = none → DSN d = none) ∧
    (lookupKey d ViperKeyDSN = some (.vStr "") → DSN d = none) := by
  refine ⟨rfl, ?_, ?_, ?_, ?_⟩
  · intro hm
    rw [DSN, stringKey, hm]
    rfl
  · intro s hm hne hnee
    rw [DSN, stringKey, hm]
    simp only [castString]
    rw [if_neg hne]
    rw [if_pos ?_]
    have hne2 : s.toList ≠ [] := fun hc => hnee (String.ext hc)
    have hlen : s.toList.length > 0 := List.length_pos.mpr hne2
    exact hlen
  · intro hm
    rw [DSN, stringKey, hm]
    rfl
  · intro hm
    rw [DSN, stringKey, hm]
    rfl

/-- Witness for C10. -/
theorem dsn_memory_rewrite_witness :
    DSN [(ViperKeyDSN, .vStr "memory")] = some DefaultSQLiteMemoryDSN ∧
    DSN [(ViperKeyDSN, .vStr "postgres://db")] = some "postgres://db" ∧
    DSN [] = none :=
  ⟨(dsn_memory_rewrite [(ViperKeyDSN, .vStr "memory")]).2.1 rfl,
   (dsn_memory_rewrite [(ViperKeyDSN, .vStr "postgres://db")]).2.2.1 "postgres://db" rfl
     (by decide) (by decide),
   (dsn_memory_rewrite []).2.2.2.1 rfl⟩

/-- C8 counterexample: with `session.cookie.same_site` absent the accessor
returns the Lax mode (via the configured fallback `"Lax"`), not the
unspecified default mode the claim asserts for the absence case. -/
theorem sessionSameSiteMode_absent_counterexample :
    SessionSameSiteMode [] = SameSite.laxMode ∧ SameSite.laxMode ≠ SameSite.defaultMode := by
  constructor
  · rfl
  · decide

/-- C8 (amended): configured `Lax` / `Strict` / `None` map to the
corresponding modes, any other configured string maps to the unspecified
default mode, and an absent key falls back to `"Lax"` and hence the Lax
mode. -/
theorem sessionSameSiteMode_mapping (d : Doc) :
    (lookupKey d ViperKeySessionSameSite = some (.vStr "Lax") →
      SessionSameSiteMode d = SameSite.laxMode) ∧
    (lookupKey d ViperKeySessionSameSite = some (.vStr "Strict") →
      SessionSameSiteMode d = SameSite.strictMode) ∧
    (lookupKey d ViperKeySessionSameSite = some (.vStr "None") →
      SessionSameSiteMode d = SameSite.noneMode) ∧
    (∀ s, lookupKey d ViperKeySessionSameSite = some (.vStr s) →
      s ≠ "Lax" → s ≠ "Strict" → s ≠ "None" → SessionSameSiteMode d = SameSite.defaultMode) ∧
    (lookupKey d ViperKeySessionSameSite = none →
      SessionSameSiteMode d = SameSite.laxMode) := by
  refine ⟨?_, ?_, ?_, ?_, ?_⟩
  · intro hm
    rw [SessionSameSiteMode, stringF, hm]
    rfl
  · intro hm
    rw [SessionSameSiteMode, stringF, hm]
    rfl
  · intro hm
    rw [SessionSameSiteMode, stringF, hm]
    rfl
  · intro s hm h1 h2 h3
    rw [SessionSameSiteMode, stringF, hm]
    simp only [castString]
    rw [if_neg h1, if_neg h2, if_neg h3]
  · intro hm
    rw [SessionSameSiteMode, stringF, hm]
    rfl

/-- Witness for C8 (amended). -/
theorem sessionSameSiteMode_mapping_witness :
    SessionSameSiteMode [(ViperKeySessionSameSite, .vStr "Strict")] = SameSite.strictMode ∧
    SessionSameSiteMode [(ViperKeySessionSameSite, .vStr "bogus")] = SameSite.defaultMode ∧
    SessionSameSiteMode [] = SameSite.laxMode :=
  ⟨(sessionSameSiteMode_mapping [(ViperKeySessionSameSite, .vStr "Strict")]).2.1 rfl,
   (sessionSameSiteMode_mapping [(ViperKeySessionSameSite, .vStr "bogus")]).2.2.2.1 "bogus" rfl
     (by decide) (by decide) (by decide),
   (sessionSameSiteMode_mapping []).2.2.2.2 rfl⟩

/-- C6: for every hooks key, an absent key (or one resolving to no raw JSON
array) yields the empty list — the accessor is total, so no error is ever
produced — and every decoded hook whose `config` is omitted or empty is
returned with `Config = "{}"`; the named before/after hook accessors of the
login, registration and settings flows are all instances of
`selfServiceHooks`. -/
theorem selfServiceHooks_empty_and_normalized (d : Doc) (key strategy : String) :
    (lookupKey d key = none → selfServiceHooks d key = []) ∧
    (rawHooks d key = none → selfServiceHooks d key = []) ∧
    (∀ hs, lookupKey d key = some (.vHooks hs) →
      selfServiceHooks d key = hs.map normalizeHook) ∧
    (∀ hs h, lookupKey d key = some (.vHooks hs) → h ∈ hs → h.config = "" →
      (⟨h.hook, "{}"⟩ : SelfServiceHook) ∈ selfServiceHooks d key) ∧
    SelfServiceFlowLoginBeforeHooks d = selfServiceHooks d ViperKeySelfServiceLoginBeforeHooks ∧
    SelfServiceFlowRegistrationBeforeHooks d =
      selfServiceHooks d ViperKeySelfServiceRegistrationBeforeHooks ∧
    SelfServiceFlowLoginAfterHooks d strategy =
      selfServiceHooks d (HookStrategyKey ViperKeySelfServiceLoginAfter strategy) ∧
    SelfServiceFlowRegistrationAfterHooks d strategy =
      selfServiceHooks d (HookStrategyKey ViperKeySelfServiceRegistrationAfter strategy) ∧
    SelfServiceFlowSettingsAfterHooks d strategy =
      selfServiceHooks d (HookStrategyKey ViperKeySelfServiceSettingsAfter strategy) := by
  have hmap : ∀ hs, lookupKey d key = some (.vHooks hs) →
      selfServiceHooks d key = hs.map normalizeHook := by
    intro hs hm
    rw [selfServiceHooks, existsKey, hm]
    rw [rawHooks, hm]
    rfl
  refine ⟨?_, ?_, hmap, ?_, rfl, rfl, rfl, rfl, rfl⟩
  · intro hm
    rw [selfServiceHooks, existsKey, hm]
    rfl
  · intro hraw
    rw [selfServiceHooks, hraw]
    split
    · rfl
    · rfl
  · intro hs h hm hmem hcfg
    rw [hmap hs hm]
    have : normalizeHook h = ⟨h.hook, "{}"⟩ := by
      rw [normalizeHook, if_pos hcfg]
    rw [← this]
    exact List.mem_map_of_mem normalizeHook hmem

/-- Witness for C6: an absent key yields `[]`, and the example hook row of
the specification decodes with its empty config normalised to `"{}"`. -/
theorem selfServiceHooks_empty_and_normalized_witness :
    selfServiceHooks [] "selfservice.flows.login.before.hooks" = [] ∧
    selfServiceHooks
      [("selfservice.flows.login.after.password.hooks",
        .vHooks [⟨"revoke_active_sessions", ""⟩])]
      "selfservice.flows.login.after.password.hooks" =
      [⟨"revoke_active_sessions", "{}"⟩] :=
  ⟨(selfServiceHooks_empty_and_normalized [] "selfservice.flows.login.before.hooks" "").1 rfl,
   ((selfServiceHooks_empty_and_normalized
      [("selfservice.flows.login.after.password.hooks",
        .vHooks [⟨"revoke_active_sessions", ""⟩])]
      "selfservice.flows.login.after.password.hooks" "").2.2.1
      [⟨"revoke_active_sessions", ""⟩] rfl).trans (by decide)⟩

/-- C3 counterexample: when the explicit `identity.schemas` list itself
contains an entry with ID `default`, the returned list carries two entries
with that ID, refuting the exactly-one part of the claim. -/
theorem identityTraitsSchemas_counterexample :
    IdentityTraitsSchemas docDupSchema =
      some [⟨"default", "http://other/x"⟩, ⟨"default", "http://a/b"⟩] ∧
    ([⟨"default", "http://other/x"⟩, (⟨"default", "http://a/b"⟩ : Schema)].filter
      (fun sc => sc.ID = DefaultIdentityTraitsSchemaID)).length ≠ 1 := by
  constructor
  · decide
  · decide

/-- C3 (amended): the returned list is always the explicitly configured
schemas followed by the default entry (ID `default`, URL the rendered
default schema URL) as its last element; when no explicit schema uses the
ID `default`, that entry is the unique one carrying that ID. -/
theorem identityTraitsSchemas_default_last (d : Doc) (ss : List Schema)
    (h : IdentityTraitsSchemas d = some ss) :
    ∃ u, DefaultIdentityTraitsSchemaURL d = some u ∧
      ss = explicitSchemas d ++ [⟨DefaultIdentityTraitsSchemaID, urlString u⟩] ∧
      ss.getLast? = some ⟨DefaultIdentityTraitsSchemaID, urlString u⟩ ∧
      ((∀ sc ∈ explicitSchemas d, sc.ID ≠ DefaultIdentityTraitsSchemaID) →
        (ss.filter (fun sc => sc.ID = DefaultIdentityTraitsSchemaID)).length = 1) := by
  rw [IdentityTraitsSchemas] at h
  cases hu : DefaultIdentityTraitsSchemaURL d with
  | none => rw [hu] at h; exact absurd h (by simp)
  | some u =>
    rw [hu] at h
    simp only [Option.map_some] at h
    injection h with h
    have hss : ss = explicitSchemas d ++ [⟨DefaultIdentityTraitsSchemaID, urlString u⟩] := by
      rw [← h, explicitSchemas]
      cases hex : existsKey d ViperKeyIdentitySchemas with
      | false => simp
      | true =>
        simp only [Bool.not_true, Bool.false_eq_true, if_false]
        cases hraw : rawSchemas d ViperKeyIdentitySchemas with
        | none => simp
        | some ss2 => simp
    refine ⟨u, rfl, hss, ?_, ?_⟩
    · rw [hss]
      exact List.getLast?_concat _
    · intro hnone
      rw [hss, List.filter_append]
      have h1 : (explicitSchemas d).filter
          (fun sc => decide (sc.ID = DefaultIdentityTraitsSchemaID)) = [] := by
        rw [List.filter_eq_nil_iff]
        intro a ha
        simp [hnone a ha]
      rw [h1]
      simp [DefaultIdentityTraitsSchemaID]

/-- Witness for C3 (amended) on a document with one explicit non-default
schema. -/
theorem identityTraitsSchemas_default_last_witness :
    ∃ u, DefaultIdentityTraitsSchemaURL docOneSchema = some u ∧
      [⟨"employee", "http://other/x"⟩, (⟨"default", "http://a/b"⟩ : Schema)] =
        explicitSchemas docOneSchema ++ [⟨DefaultIdentityTraitsSchemaID, urlString u⟩] ∧
      [⟨"employee", "http://other/x"⟩, (⟨"default", "http://a/b"⟩ : Schema)].getLast? =
        some ⟨DefaultIdentityTraitsSchemaID, urlString u⟩ ∧
      ((∀ sc ∈ explicitSchemas docOneSchema, sc.ID ≠ DefaultIdentityTraitsSchemaID) →
        (([⟨"employee", "http://other/x"⟩, (⟨"default", "http://a/b"⟩ : Schema)].filter
          (fun sc => sc.ID = DefaultIdentityTraitsSchemaID)).length = 1)) :=
  identityTraitsSchemas_default_last docOneSchema
    [⟨"employee", "http://other/x"⟩, ⟨"default", "http://a/b"⟩] (by decide)

/-- C7 counterexample: on a 128-CPU host the default parallelism is
`uint8(128 * 2) = 0`, not `2 × 128`; the claim that the default equals
twice the CPU count fails at that machine width. -/
theorem hasherArgon2_parallelism_counterexample :
    Argon2DefaultParallelism envCpu128 = 0 ∧
    envCpu128.numCPU * 2 = 256 ∧
    (HasherArgon2 envCpu128 []).Parallelism = 0 ∧
    (HasherArgon2 envCpu128 []).Parallelism ≠ envCpu128.numCPU * 2 := by
  refine ⟨rfl, rfl, rfl, ?_⟩
  decide

/-- C7 (amended): each Argon2 field falls back independently to its
literal default whenever its own key is absent, regardless of what the
rest of the document configures; a configured iterations value is read
(through the Go `uint32` conversion) independently of the other keys; the
parallelism default is `uint8(2 × numCPU)` — twice the CPU count reduced
modulo 256 — computed from the environment and not from the document; and
on the example document, where only `iterations` is set (to 3), every
other field equals its literal default. -/
theorem hasherArgon2_independent_defaults (env : Env) (d : Doc) :
    (lookupKey d "hashers.argon2.memory" = none →
      (HasherArgon2 env d).Memory = Argon2DefaultMemory) ∧
    (lookupKey d "hashers.argon2.iterations" = none →
      (HasherArgon2 env d).Iterations = Argon2DefaultIterations) ∧
    (lookupKey d "hashers.argon2.parallelism" = none →
      (HasherArgon2 env d).Parallelism = env.numCPU * 2 % 256) ∧
    (lookupKey d "hashers.argon2.salt_length" = none →
      (HasherArgon2 env d).SaltLength = Argon2DefaultSaltLength) ∧
    (lookupKey d "hashers.argon2.key_length" = none →
      (HasherArgon2 env d).KeyLength = Argon2DefaultKeyLength) ∧
    (lookupKey d "hashers.argon2.expected_duration" = none →
      (HasherArgon2 env d).ExpectedDuration = Argon2DefaultDuration) ∧
    (lookupKey d "hashers.argon2.expected_deviation" = none →
      (HasherArgon2 env d).ExpectedDeviation = Argon2DefaultDeviation) ∧
    (lookupKey d "hashers.argon2.dedicated_memory" = none →
      (HasherArgon2 env d).DedicatedMemory = Argon2DefaultDedicatedMemory) ∧
    (∀ n : Int, lookupKey d "hashers.argon2.iterations" = some (.vInt n) →
      (HasherArgon2 env d).Iterations = goUint32 n) ∧
    (lookupKey d "hashers.argon2.iterations" = some (.vInt 3) →
      lookupKey d "hashers.argon2.memory" = none →
      lookupKey d "hashers.argon2.parallelism" = none →
      lookupKey d "hashers.argon2.salt_length" = none →
      lookupKey d "hashers.argon2.key_length" = none →
      lookupKey d "hashers.argon2.expected_duration" = none →
      lookupKey d "hashers.argon2.expected_deviation" = none →
      lookupKey d "hashers.argon2.dedicated_memory" = none →
      HasherArgon2 env d =
        ⟨134217728, 3, env.numCPU * 2 % 256, 16, 32, 500000000, 500000000, 1073741824⟩) := by
  have harith : goUint8 (Argon2DefaultParallelism env) = env.numCPU * 2 % 256 := by
    rw [Argon2DefaultParallelism, goUint8, goUint8]
    omega
  have hpar : ∀ h : lookupKey d "hashers.argon2.parallelism" = none,
      (HasherArgon2 env d).Parallelism = env.numCPU * 2 % 256 := by
    intro h
    show goUint8 (intF d "hashers.argon2.parallelism" (Argon2DefaultParallelism env)) =
      env.numCPU * 2 % 256
    rw [intF, h]
    exact harith
  refine ⟨?_, ?_, hpar, ?_, ?_, ?_, ?_, ?_, ?_, ?_⟩
  · intro h
    show byteSizeF d "hashers.argon2.memory" Argon2DefaultMemory = Argon2DefaultMemory
    rw [byteSizeF, h]
  · intro h
    show goUint32 (intF d "hashers.argon2.iterations" Argon2DefaultIterations) =
      Argon2DefaultIterations
    rw [intF, h]
    decide
  · intro h
    show goUint32 (intF d "hashers.argon2.salt_length" Argon2DefaultSaltLength) =
      Argon2DefaultSaltLength
    rw [intF, h]
    decide
  · intro h
    show goUint32 (intF d "hashers.argon2.key_length" Argon2DefaultKeyLength) =
      Argon2DefaultKeyLength
    rw [intF, h]
    decide
  · intro h
    show durationF d "hashers.argon2.expected_duration" Argon2DefaultDuration =
      Argon2DefaultDuration
    rw [durationF, h]
  · intro h
    show durationF d "hashers.argon2.expected_deviation" Argon2DefaultDeviation =
      Argon2DefaultDeviation
    rw [durationF, h]
  · intro h
    show byteSizeF d "hashers.argon2.dedicated_memory" Argon2DefaultDedicatedMemory =
      Argon2DefaultDedicatedMemory
    rw [byteSizeF, h]
  · intro n h
    show goUint32 (intF d "hashers.argon2.iterations" Argon2DefaultIterations) = goUint32 n
    rw [intF, h]
  · intro hiter hmem hp hsalt hkey hdur hdev hded
    rw [HasherArgon2]
    rw [byteSizeF, hmem, intF, hiter, intF, hp, intF, hsalt, intF, hkey,
      durationF, hdur, durationF, hdev, byteSizeF, hded]
    rw [← harith]
    rfl

/-- Witness for C7 (amended): the memory default on the example document,
the iterations default on a document that configures a different field,
the parallelism default formula, and the full example record, all at a
4-CPU host. -/
theorem hasherArgon2_independent_defaults_witness :
    (HasherArgon2 envA docIter3).Memory = Argon2DefaultMemory ∧
    (HasherArgon2 envA [("hashers.argon2.memory", .vInt 7)]).Iterations =
      Argon2DefaultIterations ∧
    (HasherArgon2 envA docIter3).Parallelism = envA.numCPU * 2 % 256 ∧
    HasherArgon2 envA docIter3 =
      ⟨134217728, 3, 8, 16, 32, 500000000, 500000000, 1073741824⟩ :=
  ⟨(hasherArgon2_independent_defaults envA docIter3).1 rfl,
   (hasherArgon2_independent_defaults envA [("hashers.argon2.memory", .vInt 7)]).2.1 rfl,
   (hasherArgon2_independent_defaults envA docIter3).2.2.1 rfl,
   ((hasherArgon2_independent_defaults envA docIter3).2.2.2.2.2.2.2.2.2
      rfl rfl rfl rfl rfl rfl rfl rfl).trans (by decide)⟩

/-- C5 counterexample: on the document
`{"serve":{"public":{"port":4455}},"dev":true}` with the host absent,
`PublicListenOn` returns `":4455"` — the empty configured host verbatim —
and not `"<hostname>:4455"`; the hostname substitution of the claim happens
only in `guessBaseURL`, never in `listenOn`. -/
theorem publicListenOn_counterexample :
    PublicListenOn docDevPort = some ":4455" ∧
    envA.hostname = some "myhost" ∧
    PublicListenOn docDevPort ≠ some ("myhost" ++ ":4455") := by
  refine ⟨rfl, rfl, ?_⟩
  decide

/-- C5 (amended): on any document storing public port 4455 and `dev = true`,
with the public host empty or absent and no public base URL, the listen
string is `":4455"` and the guessed public base URL uses scheme `http`. -/
theorem publicListenOn_dev_scheme (env : Env) (d : Doc)
    (hport : lookupKey d ViperKeyPublicPort = some (.vInt 4455))
    (hdev : lookupKey d "dev" = some (.vBool true))
    (hhost : lookupKey d ViperKeyPublicHost = none ∨
      lookupKey d ViperKeyPublicHost = some (.vStr ""))
    (hbase : lookupKey d ViperKeyPublicBaseURL = none) :
    PublicListenOn d = some ":4455" ∧ (SelfPublicURL env d).Scheme = "http" := by
  have hhost2 : stringKey d ViperKeyPublicHost = "" := by
    rcases hhost with hm | hm
    · rw [stringKey, hm]
    · rw [stringKey, hm]
      rfl
  constructor
  · rw [PublicListenOn, listenOn]
    have hkey : ("serve." ++ "public" ++ ".port") = ViperKeyPublicPort := rfl
    have hkey2 : ("serve." ++ "public" ++ ".host") = ViperKeyPublicHost := rfl
    rw [hkey, hkey2, intF, hport, hhost2]
    rfl
  · rw [SelfPublicURL, baseURL, hbase]
    rw [guessBaseURL]
    rw [IsInsecureDevMode, boolKey, hdev]
    rfl

/-- Witness for C5 (amended) at the exact document of the claim. -/
theorem publicListenOn_dev_scheme_witness :
    PublicListenOn docDevPort = some ":4455" ∧
    (SelfPublicURL envA docDevPort).Scheme = "http" :=
  publicListenOn_dev_scheme envA docDevPort rfl rfl (Or.inl rfl) rfl

/-- C4 counterexample: with the public host configured as `"0.0.0.0"` —
a non-empty value — the guess still substitutes the process hostname,
whereas the claim allows the hostname fallback only for an empty configured
host. -/
theorem baseURL_zero_host_counterexample :
    stringKey docZeroHost ViperKeyPublicHost = "0.0.0.0" ∧
    (SelfPublicURL envA docZeroHost).Host = "myhost:4433" ∧
    (SelfPublicURL envA docZeroHost).Host ≠ "0.0.0.0:4433" := by
  refine ⟨rfl, rfl, ?_⟩
  decide

/-- C4 (amended): `baseURL` resolves in exactly three tiers — a stored
structured URL is returned verbatim; a stored string is parsed as a request
URI and returned on success; on parse failure or when the key is absent the
result is guessed with scheme `https` (`http` in insecure dev mode), path
`/`, host `"<host>:<port>"` where the port falls back to 4433 (public) or
4434 (admin) and the host falls back to the process hostname (or
`127.0.0.1` when the lookup fails) when the configured host is empty or
`"0.0.0.0"`. -/
theorem baseURL_three_tiers (env : Env) (d : Doc) (keyURL keyHost keyPort : String)
    (defaultPort : Int) :
    (∀ u, lookupKey d keyURL = some (.vURL u) →
      baseURL env d keyURL keyHost keyPort defaultPort = u) ∧
    (∀ s u, lookupKey d keyURL = some (.vStr s) → parseRequestURI s = some u →
      baseURL env d keyURL keyHost keyPort defaultPort = u) ∧
    (∀ s, lookupKey d keyURL = some (.vStr s) → parseRequestURI s = none →
      baseURL env d keyURL keyHost keyPort defaultPort =
        guessBaseURL env d keyHost keyPort defaultPort) ∧
    (lookupKey d keyURL = none →
      baseURL env d keyURL keyHost keyPort defaultPort =
        guessBaseURL env d keyHost keyPort defaultPort) ∧
    (guessBaseURL env d keyHost keyPort defaultPort =
      { Scheme := if IsInsecureDevMode d then "http" else "https"
        Opq := ""
        Host :=
          (if stringKey d keyHost = "0.0.0.0" ∨ (stringKey d keyHost).length = 0 then
            env.hostname.getD "127.0.0.1"
          else stringKey d keyHost) ++ ":" ++ intDecimal (intF d keyPort defaultPort)
        Path := "/"
        ForceQuery := false
        RawQuery := "" }) ∧
    SelfPublicURL env d = baseURL env d ViperKeyPublicBaseURL ViperKeyPublicHost ViperKeyPublicPort 4433 ∧
    SelfAdminURL env d = baseURL env d ViperKeyAdminBaseURL ViperKeyAdminHost ViperKeyAdminPort 4434 := by
  refine ⟨?_, ?_, ?_, ?_, ?_, rfl, rfl⟩
  · intro u hm
    rw [baseURL, hm]
  · intro s u hm hp
    rw [baseURL, hm]
    show (parseRequestURI s).getD (guessBaseURL env d keyHost keyPort defaultPort) = u
    rw [hp]
    rfl
  · intro s hm hp
    rw [baseURL, hm]
    show (parseRequestURI s).getD (guessBaseURL env d keyHost keyPort defaultPort) =
      guessBaseURL env d keyHost keyPort defaultPort
    rw [hp]
    rfl
  · intro hm
    rw [baseURL, hm]
  · rw [guessBaseURL, guessHost]
    have hhost : (if (stringKey d keyHost = "0.0.0.0" || (stringKey d keyHost).length = 0) = true
          then
            match env.hostname with
            | some h => h
            | none => "127.0.0.1"
          else stringKey d keyHost) =
        (if stringKey d keyHost = "0.0.0.0" ∨ (stringKey d keyHost).length = 0 then
          env.hostname.getD "127.0.0.1"
        else stringKey d keyHost) := by
      by_cases hc : stringKey d keyHost = "0.0.0.0" ∨ (stringKey d keyHost).length = 0
      · rw [if_pos (by simpa using hc), if_pos hc]
        cases env.hostname with
        | none => rfl
        | some h => rfl
      · rw [if_neg (by simpa using hc), if_neg hc]
    rw [hhost]

/-- Witness for C4 (amended): the three tiers observed on concrete
documents. -/
theorem baseURL_three_tiers_witness :
    (baseURL envA [(ViperKeyPublicBaseURL, .vURL ⟨"https", "", "x:1", "/", false, ""⟩)]
      ViperKeyPublicBaseURL ViperKeyPublicHost ViperKeyPublicPort 4433 =
      ⟨"https", "", "x:1", "/", false, ""⟩) ∧
    (baseURL envA [(ViperKeyPublicBaseURL, .vStr "https://kratos.example.org/")]
      ViperKeyPublicBaseURL ViperKeyPublicHost ViperKeyPublicPort 4433 =
      ⟨"https", "", "kratos.example.org", "/", false, ""⟩) ∧
    (baseURL envA [(ViperKeyPublicBaseURL, .vStr "not a url")]
      ViperKeyPublicBaseURL ViperKeyPublicHost ViperKeyPublicPort 4433 =
      guessBaseURL envA [(ViperKeyPublicBaseURL, .vStr "not a url")]
        ViperKeyPublicHost ViperKeyPublicPort 4433) ∧
    (baseURL envA [] ViperKeyPublicBaseURL ViperKeyPublicHost ViperKeyPublicPort 4433 =
      guessBaseURL envA [] ViperKeyPublicHost ViperKeyPublicPort 4433) ∧
    (guessBaseURL envA [] ViperKeyPublicHost ViperKeyPublicPort 4433 =
      { Scheme := if IsInsecureDevMode [] then "http" else "https"
        Opq := ""
        Host :=
          (if stringKey [] ViperKeyPublicHost = "0.0.0.0" ∨
              (stringKey [] ViperKeyPublicHost).length = 0 then
            envA.hostname.getD "127.0.0.1"
          else stringKey [] ViperKeyPublicHost) ++ ":" ++ intDecimal (intF [] ViperKeyPublicPort 4433)
        Path := "/"
        ForceQuery := false
        RawQuery := "" }) :=
  ⟨(baseURL_three_tiers envA [(ViperKeyPublicBaseURL, .vURL ⟨"https", "", "x:1", "/", false, ""⟩)]
      ViperKeyPublicBaseURL ViperKeyPublicHost ViperKeyPublicPort 4433).1 _ rfl,
   (baseURL_three_tiers envA [(ViperKeyPublicBaseURL, .vStr "https://kratos.example.org/")]
      ViperKeyPublicBaseURL ViperKeyPublicHost ViperKeyPublicPort 4433).2.1 _ _ rfl (by decide),
   (baseURL_three_tiers envA [(ViperKeyPublicBaseURL, .vStr "not a url")]
      ViperKeyPublicBaseURL ViperKeyPublicHost ViperKeyPublicPort 4433).2.2.1 _ rfl (by decide),
   (baseURL_three_tiers envA [] ViperKeyPublicBaseURL ViperKeyPublicHost ViperKeyPublicPort 4433).2.2.2.1 rfl,
   (baseURL_three_tiers envA [] ViperKeyPublicBaseURL ViperKeyPublicHost ViperKeyPublicPort 4433).2.2.2.2.1⟩

/-- C9 counterexample: with the public host configured as `"a/b"`, the
guessed URL renders with the slash percent-escaped (`a%2Fb`), and
`ParseRequestURI` rejects that string because hosts may not percent-encode
plain ASCII — so the claimed reparse does not succeed, let alone yield an
equal URL. -/
theorem guessBaseURL_roundtrip_counterexample :
    (guessBaseURL envA docSlashHost ViperKeyPublicHost ViperKeyPublicPort 4433).Host =
      "a/b:4433" ∧
    urlString (guessBaseURL envA docSlashHost ViperKeyPublicHost ViperKeyPublicPort 4433) =
      "https://a%2Fb:4433/" ∧
    parseRequestURI
      (urlString (guessBaseURL envA docSlashHost ViperKeyPublicHost ViperKeyPublicPort 4433)) =
      none := by
  refine ⟨rfl, ?_, ?_⟩
  · decide
  · decide

/-- Witness for C9 (amended) on the empty document (hostname `myhost`,
port 4433). -/
theorem guessBaseURL_roundtrip_witness :
    parseRequestURI (urlString (guessBaseURL envA [] ViperKeyPublicHost ViperKeyPublicPort 4433)) =
      some (guessBaseURL envA [] ViperKeyPublicHost ViperKeyPublicPort 4433) :=
  guessBaseURL_roundtrip envA [] ViperKeyPublicHost ViperKeyPublicPort 4433
    (by decide) (by decide)
